import Mathlib

/-!
Shallow embedding of the QSL card service (src/index.js).

The service stores two collections ("sent" and "received") of QSL cards as
whole JSON-array blobs in a COS object store and offers load / save / upsert /
delete / statistics operations over them.

Modelling conventions:
* A JS object is an association list of string fields in insertion order
  (`Card`); property read is first match (`getField`), property write replaces
  the existing entry in place or appends (`setField`).  The claims only ever
  exercise string-valued fields, so field values are modelled as `String`.
* `new Date().toISOString()` is modelled by a `now : String` parameter, one
  per `saveCard` call (both timestamp reads of one call happen at the same
  instant).  `uuidv4()` is modelled by a `freshId : String` parameter.
* Network effects are modelled by an explicit trace of store calls
  (`StoreOp`), so "no write was performed" is `StoreOp.put _ _ ∉ ops`.
* `readFromCos` takes the store's reply as a `GetResult` value and models
  `JSON.parse` by an explicit `parse` function argument (`Except` error =
  the thrown SyntaxError's message).
* Calendar arithmetic of `Date.prototype.setMonth` (including the day-of-month
  overflow normalisation, e.g. `May 31 setMonth(3)` = Apr 31 = May 1) is
  embedded in `setMonthSub`; `new Date("YYYY-MM-DD")` parsing in `parseYmd`,
  with the function's local time zone taken as UTC.
-/

instance {ε α : Type} [DecidableEq ε] [DecidableEq α] : DecidableEq (Except ε α) := fun a b =>
  match a, b with
  | .ok x, .ok y =>
    if h : x = y then isTrue (by rw [h]) else isFalse (fun hh => h (Except.ok.inj hh))
  | .error x, .error y =>
    if h : x = y then isTrue (by rw [h]) else isFalse (fun hh => h (Except.error.inj hh))
  | .ok _, .error _ => isFalse (fun hh => Except.noConfusion hh)
  | .error _, .ok _ => isFalse (fun hh => Except.noConfusion hh)

/-- Embeds `class QslError extends Error { constructor(message, code = -1, statusCode = 500) }`. -/
structure QslError where
  message : String
  code : Int
  statusCode : Int
deriving DecidableEq

/-- A JS object: fields in insertion order.  JS objects have pairwise
distinct keys; where a proof needs that, it is an explicit hypothesis. -/
abbrev Card := List (String × String)

/-- Embeds `String.prototype.toUpperCase` (the claims only use ASCII data). -/
def jsToUpper (s : String) : String :=
  String.mk (s.data.map Char.toUpper)

/-- Embeds `String.prototype.toLowerCase` (the claims only use ASCII data). -/
def jsToLower (s : String) : String :=
  String.mk (s.data.map Char.toLower)

/-- ASCII whitespace trimmed by `String.prototype.trim`. -/
def isJsSpace (c : Char) : Bool :=
  c == ' ' || c == '\t' || c == '\r' || c == '\n'

/-- Embeds `String.prototype.trim`. -/
def jsTrim (s : String) : String :=
  String.mk (((s.data.dropWhile isJsSpace).reverse.dropWhile isJsSpace).reverse)

/-- Embeds `String.prototype.substring(0, n)` (ASCII data: code units = characters). -/
def jsTake (s : String) (n : Nat) : String :=
  String.mk (s.data.take n)

/-- Property read `card[k]`: first entry with key `k` (JS keys are unique). -/
def getField (card : Card) (k : String) : Option String :=
  (card.find? (fun p => p.1 == k)).map (fun p => p.2)

/-- Reads `card.id`. -/
def idOf (c : Card) : Option String :=
  getField c "id"

/-- Property write `obj[k] = v`: replace in place if the key exists
(keeping its position), else append. -/
def setField : Card → String → String → Card
  | [], k, v => [(k, v)]
  | p :: rest, k, v => if p.1 == k then (k, v) :: rest else p :: setField rest k v

/-- Value the last assignment of key `k` leaves behind when an object literal
spreads `cd` (later entries of `cd` win).  For unique-keyed `cd` this is
`getField cd k`. -/
def lastVal : Card → String → Option String
  | [], _ => none
  | p :: rest, k =>
    match lastVal rest k with
    | some v => some v
    | none => if p.1 == k then some p.2 else none

-- ===========================
-- COS core operations
-- ===========================

/-- One call reaching the object store. -/
inductive StoreOp where
  | get (key : String)
  | put (key : String) (data : List Card)
deriving DecidableEq

/-- Reply of `cos.getObject`: either a body, or a thrown error carrying
`error.code`, `error.message`, `error.requestId`. -/
inductive GetResult where
  | ok (body : String)
  | err (code : String) (message : String) (requestId : String)
deriving DecidableEq

/-- Embeds `CONFIG.cos`: bucket/region names used inside error messages. -/
structure CosConfig where
  bucket : String
  region : String
deriving DecidableEq

/-- Embeds `CONFIG.cos.paths`. -/
structure CosPaths where
  sentCards : String
  receivedCards : String
deriving DecidableEq

/-- Embeds `isSentCard ? CONFIG.cos.paths.sentCards : CONFIG.cos.paths.receivedCards`. -/
def pathFor (paths : CosPaths) (isSentCard : Bool) : String :=
  if isSentCard then paths.sentCards else paths.receivedCards

/-- Embeds `readFromCos(key)` (src/index.js:50-94).  `res` is the store's reply,
`parse` models `JSON.parse` (error = SyntaxError message; a SyntaxError has
no `code`, so it falls through every classified branch to the generic one). -/
def readFromCos (cfg : CosConfig) (res : GetResult)
    (parse : String → Except String (List Card)) : Except QslError (List Card) :=
  match res with
  | .ok body =>
    let content := jsTrim body
    if content == "" then .ok []
    else
      match parse content with
      | .ok v => .ok v
      | .error m => .error ⟨"数据读取失败: " ++ m ++ " (undefined)", 1005, 500⟩
  | .err code msg rid =>
    if code == "NoSuchKey" then .ok []
    else if code == "SignatureDoesNotMatch" then
      .error ⟨"COS签名验证失败: 请检查SecretId/SecretKey和区域配置 (RequestId: " ++ rid ++ ")", 1001, 403⟩
    else if code == "AccessDenied" then
      .error ⟨"访问权限不足: 请检查密钥权限配置 (RequestId: " ++ rid ++ ")", 1002, 403⟩
    else if code == "InvalidBucketName" then
      .error ⟨"Bucket名称无效: " ++ cfg.bucket ++ " (RequestId: " ++ rid ++ ")", 1003, 400⟩
    else if code == "InvalidRegion" then
      .error ⟨"区域配置无效: " ++ cfg.region ++ " (RequestId: " ++ rid ++ ")", 1004, 400⟩
    else .error ⟨"数据读取失败: " ++ msg ++ " (" ++ code ++ ")", 1005, 500⟩

/-- a JS value handed to `writeToCos`: an array, or anything else. -/
inductive JsVal where
  | arr (cards : List Card)
  | other (tag : String)
deriving DecidableEq

/-- Embeds `writeToCos(key, data)` (src/index.js:102-119).  `Array.isArray` guard,
then `putObject` with the serialised full array (serialisation kept as the
array itself in the trace); a store failure of `putObject` is modelled by
`putErr`.  Returns (result, trace of store calls). -/
def writeToCos (key : String) (data : JsVal) (putErr : Option String) :
    Except QslError Unit × List StoreOp :=
  match data with
  | .other _ => (.error ⟨"写入的数据必须是数组", 1002, 400⟩, [])
  | .arr cards =>
    match putErr with
    | none => (.ok (), [.put key cards])
    | some m => (.error ⟨"数据保存失败: " ++ m, 1003, 500⟩, [.put key cards])

-- ===========================
-- Validation
-- ===========================

/-- Embeds `!x?.trim()`: missing, or empty after trimming. -/
def trimEmpty : Option String → Bool
  | none => true
  | some s => jsTrim s == ""

/-- Embeds `/^\d{4}-\d{2}-\d{2}$/.test(x)` (`test(undefined)` is false). -/
def isYmdShape : Option String → Bool
  | none => false
  | some s =>
    match s.data with
    | [y1, y2, y3, y4, h1, m1, m2, h2, d1, d2] =>
      y1.isDigit && y2.isDigit && y3.isDigit && y4.isDigit && h1 == '-' &&
        m1.isDigit && m2.isDigit && h2 == '-' && d1.isDigit && d2.isDigit
    | _ => false

/-- Embeds `['online', 'physical'].includes(x)`. -/
def isCardType : Option String → Bool
  | none => false
  | some s => s == "online" || s == "physical"

/-- Embeds `['pending', 'sent'].includes(x)`. -/
def isSentStatus : Option String → Bool
  | none => false
  | some s => s == "pending" || s == "sent"

/-- Embeds `x && !['received', 'verified'].includes(x)` (missing or empty is falsy). -/
def isBadReceivedStatus : Option String → Bool
  | none => false
  | some s => s != "" && !(s == "received" || s == "verified")

/-- The `errors` array accumulated by `validateCardData` (src/index.js:130-150),
in source order. -/
def cardErrors (card : Card) (isSentCard : Bool) : List String :=
  (if trimEmpty (getField card "callSign") then ["对方呼号不能为空"] else []) ++
  (if trimEmpty (getField card "myCallSign") then ["我的呼号不能为空"] else []) ++
  (if !isYmdShape (getField card "date") then ["通联日期格式不正确(YYYY-MM-DD)"] else []) ++
  (if trimEmpty (getField card "mode") then ["通信模式不能为空"] else []) ++
  (if !isCardType (getField card "cardType") then ["卡片类型必须是online或physical"] else []) ++
  (if isSentCard && !isSentStatus (getField card "status") then ["已发送卡片状态必须是pending或sent"] else []) ++
  (if !isSentCard && isBadReceivedStatus (getField card "status") then ["已接收卡片状态必须是received或verified"] else [])

/-- Embeds `validateCardData(card, isSentCard)`: throws a `QslError` joining all
collected violations with `'; '` when any rule failed. -/
def validateCardData (card : Card) (isSentCard : Bool) : Except QslError Unit :=
  let errors := cardErrors card isSentCard
  if errors.length > 0 then
    .error ⟨"卡片数据验证失败: " ++ String.intercalate "; " errors, 2001, 400⟩
  else .ok ()

-- ===========================
-- Business logic
-- ===========================

/-- The record literal of `saveCard`:
`{ id: uuidv4(), ...cardData, createdAt: now, updatedAt: now }`.
A payload `id` overrides the fresh uuid (spread comes after `id:`). -/
def buildNewCard (cardData : Card) (freshId now : String) : Card :=
  setField
    (setField (cardData.foldl (fun o p => setField o p.1 p.2) [("id", freshId)]) "createdAt" now)
    "updatedAt" now

/-- Embeds `const i = cards.findIndex(c => c.id === nid); if (i >= 0) cards[i] = newCard;
else cards.push(newCard)`: replace the first entry whose id equals `nid`
in place, else append. -/
def upsertById (nid : Option String) (newCard : Card) : List Card → List Card
  | [] => [newCard]
  | c :: rest => if idOf c == nid then newCard :: rest else c :: upsertById nid newCard rest

/-- Embeds `saveCard(cardData, isSentCard)` (src/index.js:275-303).  `stored` is the
collection `readFromCos` returned for the role's path (the claims take the
read to succeed); the result pairs the returned record with the trace of
store calls made after validation. -/
def saveCard (paths : CosPaths) (cardData : Card) (isSentCard : Bool)
    (freshId now : String) (stored : List Card) :
    Except QslError Card × List StoreOp :=
  match validateCardData cardData isSentCard with
  | .error e => (.error e, [])
  | .ok _ =>
    let path := pathFor paths isSentCard
    let newCard := buildNewCard cardData freshId now
    let updated := upsertById (idOf newCard) newCard stored
    (.ok newCard, [.get path, .put path updated])

/-- Embeds `deleteCard(cardId, isSentCard)` (src/index.js:311-331).  `stored` is the
collection read for `path`; result pairs the outcome with the store-call
trace (empty-id failure happens before any store call). -/
def deleteCard (cardId : String) (path : String) (stored : List Card) :
    Except QslError Bool × List StoreOp :=
  if cardId == "" then (.error ⟨"卡片ID不能为空", 2002, 400⟩, [])
  else
    let filteredCards := stored.filter (fun c => idOf c != some cardId)
    if filteredCards.length = stored.length then
      (.error ⟨"未找到ID为" ++ cardId ++ "的卡片", 2003, 404⟩, [.get path])
    else (.ok true, [.get path, .put path filteredCards])

/-- Result record of `getStats` (src/index.js:171-201).  The three
`Math.random()`-based growth fields are presentation-only randomness and are
not part of the deterministic core modelled here. -/
structure StatsResult where
  received : Nat
  sent : Nat
  pending : Nat
  countries : Nat
  eyeQso : Nat
deriving DecidableEq

/-- Embeds `if (card.callSign) countries.add(card.callSign.substring(0, 2).toUpperCase())`
(an empty `callSign` is falsy and skipped). -/
def countryOf (c : Card) : Option String :=
  match getField c "callSign" with
  | none => none
  | some s => if s == "" then none else some (jsToUpper (jsTake s 2))

/-- Embeds `card.mode?.toLowerCase() === 'eye'`. -/
def isEyeMode (c : Card) : Bool :=
  match getField c "mode" with
  | none => false
  | some m => jsToLower m == "eye"

/-- Embeds `Set.prototype.add`: a JS `Set` keeps insertion order and ignores a
value already present. -/
def addToSet (acc : List String) (x : String) : List String :=
  if acc.contains x then acc else acc ++ [x]

/-- Embeds `getStats()` on the two loaded collections. -/
def getStats (sentCards receivedCards : List Card) : StatsResult :=
  { received := receivedCards.length
    sent := sentCards.length
    pending := (sentCards.filter (fun c => getField c "status" == some "pending")).length
    countries := (((sentCards ++ receivedCards).filterMap countryOf).foldl addToSet []).length
    eyeQso := ((sentCards ++ receivedCards).filter isEyeMode).length }

-- ===========================
-- Chart data
-- ===========================

/-- A concrete calendar date, standing for `new Date()` (only the
year/month/day parts matter to `getChartData`). -/
structure Ymd where
  year : Int
  month : Nat
  day : Nat
deriving DecidableEq

/-- JS leap-year rule (Gregorian). -/
def isLeap (y : Int) : Bool :=
  y % 4 == 0 && (y % 100 != 0 || y % 400 == 0)

/-- Length of month `m` (1..12) of year `y`. -/
def daysInMonth (y : Int) (m : Nat) : Nat :=
  if m == 2 then (if isLeap y then 29 else 28)
  else if m == 4 || m == 6 || m == 9 || m == 11 then 30
  else 31

/-- Embeds `const d = new Date(); d.setMonth(d.getMonth() - i)`: the (year, month)
the mutated date ends up in.  `setMonth` keeps the day-of-month and JS
normalises an overflowing day into the following month (e.g. from May 31,
`setMonth(3)` gives April 31 = May 1) — the overflow is at most 3 days, so a
single month carry suffices. -/
def setMonthSub (t : Ymd) (i : Nat) : Int × Nat :=
  let t0 : Int := (t.month : Int) - 1 - (i : Int)
  let y1 : Int := t.year + t0.fdiv 12
  let m1 : Nat := (t0.fmod 12).toNat + 1
  if (t.day : Int) > (daysInMonth y1 m1 : Int) then
    (if m1 == 12 then (y1 + 1, 1) else (y1, m1 + 1))
  else (y1, m1)

/-- Embeds `String(n).padStart(2, '0')` for a month number. -/
def pad2 (n : Nat) : String :=
  if n < 10 then "0" ++ toString n else toString n

/-- Embeds the template literal building a month key, year dash two-digit month. -/
def ymKey (y : Int) (m : Nat) : String :=
  toString y ++ "-" ++ pad2 m

/-- The six `monthKey` labels pushed by the loop `for (let i = 5; i >= 0; i--)`. -/
def monthLabels (today : Ymd) : List String :=
  (List.range 6).map (fun k =>
    let ym := setMonthSub today (5 - k)
    ymKey ym.1 ym.2)

/-- Embeds `new Date(s)` for a card's `date` string: accepts `YYYY-MM-DD` with a
calendrically valid month and day (an out-of-range ISO date is an Invalid
Date in JS), yielding the (year, month); anything else is unparseable
(`isNaN(getTime())`).  Local time zone taken as UTC. -/
def parseYmd (s : String) : Option (Int × Nat) :=
  match s.data with
  | [y1, y2, y3, y4, h1, m1, m2, h2, d1, d2] =>
    if y1.isDigit && y2.isDigit && y3.isDigit && y4.isDigit && h1 == '-' &&
        m1.isDigit && m2.isDigit && h2 == '-' && d1.isDigit && d2.isDigit then
      let y : Int := ((y1.toNat - 48) * 1000 + (y2.toNat - 48) * 100 +
        (y3.toNat - 48) * 10 + (y4.toNat - 48) : Nat)
      let m : Nat := (m1.toNat - 48) * 10 + (m2.toNat - 48)
      let d : Nat := (d1.toNat - 48) * 10 + (d2.toNat - 48)
      if 1 ≤ m ∧ m ≤ 12 ∧ 1 ≤ d ∧ d ≤ daysInMonth y m then some (y, m) else none
    else none
  | _ => none

/-- The `monthKey` a card is bucketed under: `none` when `card.date` is
missing/falsy or `new Date(card.date)` is invalid (such cards are excluded
from every bucket). -/
def cardMonthKey (c : Card) : Option String :=
  match getField c "date" with
  | none => none
  | some s => if s == "" then none else (parseYmd s).map (fun p => ymKey p.1 p.2)

/-- The `monthly` part of `getChartData`'s result.  (The `modes` categorical
breakdown is outside every claim and not modelled.) -/
structure ChartMonthly where
  labels : List String
  sent : List Nat
  pending : List Nat
  received : List Nat
deriving DecidableEq

/-- Embeds `getChartData()` (src/index.js:207-246), monthly series: the `sent` and
`pending` series run the very same filter over the sent collection (the
source's two filter bodies are identical); `received` runs it over the
received collection. -/
def getChartData (today : Ymd) (sentCards receivedCards : List Card) : ChartMonthly :=
  let labels := monthLabels today
  { labels := labels
    sent := labels.map (fun key => (sentCards.filter (fun c => cardMonthKey c == some key)).length)
    pending := labels.map (fun key => (sentCards.filter (fun c => cardMonthKey c == some key)).length)
    received := labels.map (fun key => (receivedCards.filter (fun c => cardMonthKey c == some key)).length) }

/-- Invariant: ids are pairwise distinct within a collection. -/
def uniqueIds (cards : List Card) : Prop :=
  (cards.filterMap idOf).Nodup

instance (cards : List Card) : Decidable (uniqueIds cards) :=
  List.nodupDecidable _

-- ===========================
-- Lemmas: JS object field access
-- ===========================

theorem getField_cons (p : String × String) (rest : Card) (k : String) :
    getField (p :: rest) k = if p.1 = k then some p.2 else getField rest k := by
  by_cases hp : p.1 = k <;> simp [getField, List.find?_cons, hp]

theorem getField_setField_self (o : Card) (k v : String) :
    getField (setField o k v) k = some v := by
  induction o with
  | nil => simp [setField, getField_cons, getField]
  | cons p rest ih =>
    by_cases h : p.1 = k
    · simp [setField, h, getField_cons]
    · simp [setField, h, getField_cons, ih]

theorem getField_setField_ne (o : Card) (k v k' : String) (h : k' ≠ k) :
    getField (setField o k v) k' = getField o k' := by
  have h' : ¬(k = k') := fun hh => h hh.symm
  induction o with
  | nil => simp [setField, getField_cons, getField, h']
  | cons p rest ih =>
    by_cases hp : p.1 = k
    · simp [setField, hp, getField_cons, h']
    · simp [setField, hp, getField_cons, ih]

theorem getField_foldl_setField (cd : Card) (init : Card) (k : String) :
    getField (cd.foldl (fun o p => setField o p.1 p.2) init) k =
      match lastVal cd k with
      | some v => some v
      | none => getField init k := by
  induction cd generalizing init with
  | nil => simp [lastVal]
  | cons p rest ih =>
    simp only [List.foldl_cons, lastVal]
    rw [ih]
    cases hrest : lastVal rest k with
    | some v => simp
    | none =>
      by_cases hk : p.1 = k
      · simp [hk, getField_setField_self]
      · simp [hk, getField_setField_ne _ _ _ _ (fun hh => hk hh.symm)]

theorem getField_eq_none_iff (o : Card) (k : String) :
    getField o k = none ↔ k ∉ o.map Prod.fst := by
  induction o with
  | nil => simp [getField]
  | cons p rest ih =>
    rw [getField_cons]
    by_cases hp : p.1 = k
    · simp [hp]
    · have hp' : ¬(k = p.1) := fun hh => hp hh.symm
      simp [hp, hp', ih]

theorem lastVal_eq_none_of_not_mem (cd : Card) (k : String) (h : k ∉ cd.map Prod.fst) :
    lastVal cd k = none := by
  induction cd with
  | nil => simp [lastVal]
  | cons p rest ih =>
    simp only [List.map_cons, List.mem_cons, not_or] at h
    have hp : ¬(p.1 = k) := fun hh => h.1 hh.symm
    simp [lastVal, ih h.2, hp]

theorem lastVal_eq_getField (cd : Card) (k : String) (h : (cd.map Prod.fst).Nodup) :
    lastVal cd k = getField cd k := by
  induction cd with
  | nil => simp [lastVal, getField]
  | cons p rest ih =>
    simp only [List.map_cons, List.nodup_cons] at h
    rw [getField_cons]
    by_cases hp : p.1 = k
    · have hnone : lastVal rest k = none := lastVal_eq_none_of_not_mem _ _ (hp ▸ h.1)
      simp [lastVal, hnone, hp]
    · simp only [lastVal, ih h.2, hp, if_false]
      cases getField rest k <;> simp [hp]

theorem getField_buildNewCard (cd : Card) (fid now k : String) :
    getField (buildNewCard cd fid now) k =
      if k = "updatedAt" then some now
      else if k = "createdAt" then some now
      else
        match lastVal cd k with
        | some v => some v
        | none => if k = "id" then some fid else none := by
  unfold buildNewCard
  by_cases hu : k = "updatedAt"
  · simp [hu, getField_setField_self]
  · rw [getField_setField_ne _ _ _ _ hu]
    by_cases hc : k = "createdAt"
    · simp [hu, hc, getField_setField_self]
    · rw [getField_setField_ne _ _ _ _ hc, getField_foldl_setField]
      simp only [hu, hc, if_false]
      cases lastVal cd k with
      | some v => simp
      | none =>
        by_cases hid : k = "id"
        · simp [hid, getField_cons]
        · have hid' : ¬("id" = k) := fun hh => hid hh.symm
          simp [hid, hid', getField_cons, getField]

theorem idOf_buildNewCard (cd : Card) (fid now : String)
    (hkeys : (cd.map Prod.fst).Nodup) :
    idOf (buildNewCard cd fid now) = some ((getField cd "id").getD fid) := by
  unfold idOf
  rw [getField_buildNewCard, lastVal_eq_getField _ _ hkeys]
  cases getField cd "id" <;> simp

theorem idOf_buildNewCard_isSome (cd : Card) (fid now : String) :
    (idOf (buildNewCard cd fid now)).isSome := by
  unfold idOf
  rw [getField_buildNewCard]
  cases lastVal cd "id" <;> simp

-- ===========================
-- Lemmas: upsert / unique ids / JS Set
-- ===========================

theorem upsertById_of_forall_ne (nid : Option String) (newCard : Card) (l : List Card)
    (h : ∀ c ∈ l, idOf c ≠ nid) :
    upsertById nid newCard l = l ++ [newCard] := by
  induction l with
  | nil => rfl
  | cons c rest ih =>
    have hc : idOf c ≠ nid := h c (List.mem_cons_self c rest)
    have hrest : ∀ d ∈ rest, idOf d ≠ nid := fun d hd => h d (List.mem_cons_of_mem c hd)
    simp [upsertById, hc, ih hrest]

theorem upsertById_replace (nid : Option String) (newCard old : Card)
    (pre post : List Card) (hpre : ∀ c ∈ pre, idOf c ≠ nid) (hold : idOf old = nid) :
    upsertById nid newCard (pre ++ old :: post) = pre ++ newCard :: post := by
  induction pre with
  | nil => simp [upsertById, hold]
  | cons c rest ih =>
    have hc : idOf c ≠ nid := hpre c (List.mem_cons_self c rest)
    simp [upsertById, hc, ih (fun d hd => hpre d (List.mem_cons_of_mem c hd))]

theorem uniqueIds_of_cons (c : Card) (l : List Card) (h : uniqueIds (c :: l)) :
    uniqueIds l := by
  unfold uniqueIds at *
  rw [List.filterMap_cons] at h
  cases hidc : idOf c with
  | none => rwa [hidc] at h
  | some s =>
    rw [hidc] at h
    exact h.of_cons

theorem not_mem_of_uniqueIds_cons (c : Card) (l : List Card) (s : String)
    (h : uniqueIds (c :: l)) (hc : idOf c = some s) : ∀ d ∈ l, idOf d ≠ some s := by
  unfold uniqueIds at h
  rw [List.filterMap_cons, hc] at h
  intro d hd hds
  have hmem : s ∈ l.filterMap idOf := List.mem_filterMap.mpr ⟨d, hd, hds⟩
  exact (List.nodup_cons.mp h).1 hmem

theorem filter_upsertById (l : List Card) (newCard : Card) (s : String)
    (hid : idOf newCard = some s) (hu : uniqueIds l) :
    (upsertById (some s) newCard l).filter (fun c => idOf c == some s) = [newCard] := by
  induction l with
  | nil => simp [upsertById, hid]
  | cons c rest ih =>
    by_cases hc : idOf c = some s
    · have hrest := not_mem_of_uniqueIds_cons c rest s hu hc
      have hnil : rest.filter (fun c => idOf c == some s) = [] := by
        rw [List.filter_eq_nil_iff]
        intro d hd
        simp [hrest d hd]
      simp [upsertById, hc, hid, hnil]
    · simp [upsertById, hc, ih (uniqueIds_of_cons c rest hu)]

theorem mem_filterMap_idOf_upsertById (l : List Card) (newCard : Card) (s x : String)
    (hid : idOf newCard = some s)
    (hx : x ∈ (upsertById (some s) newCard l).filterMap idOf) :
    x = s ∨ x ∈ l.filterMap idOf := by
  induction l with
  | nil =>
    simp only [upsertById, List.filterMap_cons, List.filterMap_nil, hid] at hx
    simp at hx
    exact Or.inl hx
  | cons c rest ih =>
    by_cases hc : idOf c = some s
    · rw [upsertById, if_pos (by simp [hc])] at hx
      rw [List.filterMap_cons, hid] at hx
      rcases List.mem_cons.mp hx with h1 | h1
      · exact Or.inl h1
      · right
        rw [List.filterMap_cons, hc]
        exact List.mem_cons_of_mem s h1
    · rw [upsertById, if_neg (by simp [hc])] at hx
      rw [List.filterMap_cons] at hx
      rw [List.filterMap_cons]
      cases hidc : idOf c with
      | none =>
        rw [hidc] at hx
        exact ih hx
      | some t =>
        rw [hidc] at hx
        rcases List.mem_cons.mp hx with h1 | h1
        · exact Or.inr (h1 ▸ List.mem_cons_self t _)
        · rcases ih h1 with h2 | h2
          · exact Or.inl h2
          · exact Or.inr (List.mem_cons_of_mem t h2)

theorem uniqueIds_upsertById (l : List Card) (newCard : Card) (s : String)
    (hid : idOf newCard = some s) (hu : uniqueIds l) :
    uniqueIds (upsertById (some s) newCard l) := by
  induction l with
  | nil =>
    unfold uniqueIds upsertById
    simp [List.filterMap_cons, hid]
  | cons c rest ih =>
    by_cases hc : idOf c = some s
    · rw [upsertById, if_pos (by simp [hc])]
      unfold uniqueIds at *
      rw [List.filterMap_cons, hid]
      rwa [List.filterMap_cons, hc] at hu
    · have hu' : uniqueIds rest := uniqueIds_of_cons c rest hu
      have ih' := ih hu'
      rw [upsertById, if_neg (by simp [hc])]
      unfold uniqueIds
      rw [List.filterMap_cons]
      cases hidc : idOf c with
      | none => exact ih'
      | some t =>
        have hts : t ≠ s := by
          intro hh
          rw [hh] at hidc
          exact hc hidc
        refine List.nodup_cons.mpr ⟨?_, ih'⟩
        intro hmem
        rcases mem_filterMap_idOf_upsertById rest newCard s t hid hmem with h1 | h1
        · exact hts h1
        · unfold uniqueIds at hu
          rw [List.filterMap_cons, hidc] at hu
          exact (List.nodup_cons.mp hu).1 h1

theorem uniqueIds_filter (l : List Card) (p : Card → Bool) (hu : uniqueIds l) :
    uniqueIds (l.filter p) := by
  unfold uniqueIds at *
  exact List.Nodup.sublist (List.Sublist.filterMap idOf (List.filter_sublist l)) hu

theorem nodup_foldl_addToSet (l : List String) (acc : List String) (h : acc.Nodup) :
    (l.foldl addToSet acc).Nodup := by
  induction l generalizing acc with
  | nil => simpa
  | cons x rest ih =>
    simp only [List.foldl_cons]
    apply ih
    by_cases hx : x ∈ acc
    · simpa [addToSet, hx]
    · simp [addToSet, hx, List.nodup_append, h]

theorem toFinset_foldl_addToSet (l acc : List String) :
    (l.foldl addToSet acc).toFinset = acc.toFinset ∪ l.toFinset := by
  induction l generalizing acc with
  | nil => simp
  | cons x rest ih =>
    simp only [List.foldl_cons, ih, List.toFinset_cons]
    by_cases hx : x ∈ acc
    · ext a
      by_cases ha : a = x <;> simp [addToSet, hx, ha]
    · ext a
      by_cases ha : a = x <;> simp [addToSet, hx, ha]

theorem length_foldl_addToSet_nil (l : List String) :
    (l.foldl addToSet []).length = l.toFinset.card := by
  have h1 : (l.foldl addToSet []).Nodup := nodup_foldl_addToSet l [] (by simp)
  have h2 : (l.foldl addToSet []).toFinset = l.toFinset := by
    simp [toFinset_foldl_addToSet]
  rw [← h2, List.toFinset_card_of_nodup h1]

theorem mem_ite_single_append (a x : String) (b : Bool) (l : List String) :
    (a ∈ (if b then [x] else []) ++ l) ↔ (b = true ∧ a = x) ∨ a ∈ l := by
  cases b <;> simp

-- ===========================
-- Claim theorems
-- ===========================

/-- C9: for every pair of sent and received collections (and every current
date), the chart view's "pending" monthly series is elementwise equal to its
"sent" monthly series — both run the identical filter over the sent
collection. -/
theorem getChartData_pending_eq_sent (today : Ymd) (sentCards receivedCards : List Card) :
    (getChartData today sentCards receivedCards).pending =
      (getChartData today sentCards receivedCards).sent := rfl

/-- C5: `writeToCos` rejects every non-array argument with the typed failure
(code 1002, HTTP 400) before any store call (its trace is empty), and for
every array argument it issues the `put` of the full serialised sequence
unconditionally (whether or not the store then fails). -/
theorem writeToCos_guard_spec :
    (∀ key tag putErr,
      writeToCos key (JsVal.other tag) putErr
        = (.error ⟨"写入的数据必须是数组", 1002, 400⟩, [])) ∧
    (∀ key cards putErr,
      (writeToCos key (JsVal.arr cards) putErr).2 = [StoreOp.put key cards]) := by
  constructor
  · intro key tag putErr
    rfl
  · intro key cards putErr
    cases putErr <;> rfl

/-- C4: `readFromCos` returns an empty collection (not a failure) when the
store reports the blob missing (`NoSuchKey`) and when the blob's content is
empty or whitespace-only; every other store error is surfaced as a failure. -/
theorem readFromCos_empty_cases :
    (∀ cfg parse msg rid,
      readFromCos cfg (GetResult.err "NoSuchKey" msg rid) parse = .ok []) ∧
    (∀ cfg parse body, jsTrim body = "" →
      readFromCos cfg (GetResult.ok body) parse = .ok []) ∧
    (∀ cfg parse code msg rid, code ≠ "NoSuchKey" →
      ∃ e, readFromCos cfg (GetResult.err code msg rid) parse = .error e) := by
  refine ⟨?_, ?_, ?_⟩
  · intro cfg parse msg rid
    rfl
  · intro cfg parse body h
    simp [readFromCos, h]
  · intro cfg parse code msg rid h
    have h1 : ¬((code == "NoSuchKey") = true) := by simpa using h
    unfold readFromCos
    dsimp only
    rw [if_neg h1]
    split_ifs <;> exact ⟨_, rfl⟩

/-- A concrete stand-in for `JSON.parse` used by witnesses. -/
def parseStub : String → Except String (List Card) := fun _ => .ok []

/-- Witness for C4 at concrete inputs. -/
theorem readFromCos_empty_cases_witness :
    jsTrim "   " = "" ∧
    readFromCos ⟨"b", "r"⟩ (GetResult.ok "   ") parseStub = .ok [] ∧
    ("AccessDenied" : String) ≠ "NoSuchKey" ∧
    (∃ e, readFromCos ⟨"b", "r"⟩ (GetResult.err "AccessDenied" "denied" "rid1") parseStub
      = .error e) :=
  ⟨by decide, readFromCos_empty_cases.2.1 ⟨"b", "r"⟩ parseStub "   " (by decide),
   by decide, readFromCos_empty_cases.2.2 ⟨"b", "r"⟩ parseStub "AccessDenied" "denied" "rid1"
    (by decide)⟩

/-- C2: an empty id is rejected with the typed "id required" failure
(code 2002, HTTP 400) before any store call (empty trace), and an id not
present in the stored collection fails with the typed not-found failure
(code 2003, HTTP 404) with only the read in the trace — no write is
performed, so the stored collection is unchanged. -/
theorem deleteCard_missing_spec :
    (∀ path stored,
      deleteCard "" path stored = (.error ⟨"卡片ID不能为空", 2002, 400⟩, [])) ∧
    (∀ cid path stored, cid ≠ "" → (∀ c ∈ stored, idOf c ≠ some cid) →
      deleteCard cid path stored
        = (.error ⟨"未找到ID为" ++ cid ++ "的卡片", 2003, 404⟩, [StoreOp.get path])) := by
  constructor
  · intro path stored
    rfl
  · intro cid path stored hcid hnone
    have hfilter : stored.filter (fun c => idOf c != some cid) = stored := by
      rw [List.filter_eq_self]
      intro c hc
      simp [hnone c hc]
    simp [deleteCard, hcid, hfilter]

/-- Witness for C2 at concrete inputs. -/
theorem deleteCard_missing_spec_witness :
    ("x" : String) ≠ "" ∧ (∀ c ∈ [[("id", "y")]], idOf c ≠ some "x") ∧
    deleteCard "x" "p" [[("id", "y")]]
      = (.error ⟨"未找到ID为" ++ "x" ++ "的卡片", 2003, 404⟩, [StoreOp.get "p"]) :=
  ⟨by decide, by decide,
   deleteCard_missing_spec.2 "x" "p" [[("id", "y")]] (by decide) (by decide)⟩

/-- C8: the six chart labels are NOT always one per trailing calendar month:
on 2024-05-31 the JS `setMonth` day-overflow skips February and April 2024
and duplicates March and May, contradicting the intended (and spec-stated)
"one bucket per calendar month for the trailing 6 months"; on a day that
exists in every month of the window (2024-02-15) the labels are the six
trailing months and the §8 scenario counts hold, with missing or unparseable
dates excluded. -/
theorem getChartData_month_window :
    monthLabels ⟨2024, 5, 31⟩
      = ["2023-12", "2024-01", "2024-03", "2024-03", "2024-05", "2024-05"] ∧
    "2024-02" ∉ monthLabels ⟨2024, 5, 31⟩ ∧
    "2024-04" ∉ monthLabels ⟨2024, 5, 31⟩ ∧
    ¬(monthLabels ⟨2024, 5, 31⟩).Nodup ∧
    getChartData ⟨2024, 2, 15⟩
        [[("date", "2024-01-15")], [("date", "2024-02-01")]]
        [[("date", "2024-02-10")]]
      = ⟨["2023-09", "2023-10", "2023-11", "2023-12", "2024-01", "2024-02"],
         [0, 0, 0, 0, 1, 1], [0, 0, 0, 0, 1, 1], [0, 0, 0, 0, 0, 1]⟩ ∧
    cardMonthKey [("cardType", "online")] = none ∧
    cardMonthKey [("date", "not-a-date")] = none := by
  decide

/-- C7: the stats view counts received/sent lengths, pending sent cards,
distinct upper-cased two-character call-sign prefixes across both
collections, and records whose mode case-insensitively equals "eye";
the §8 scenario yields pending 1, countries 2, eyeQso 1. -/
theorem getStats_spec :
    (∀ s r, (getStats s r).received = r.length) ∧
    (∀ s r, (getStats s r).sent = s.length) ∧
    (∀ s r, (getStats s r).pending
      = s.countP (fun c => getField c "status" == some "pending")) ∧
    (∀ s r, (getStats s r).countries = ((s ++ r).filterMap countryOf).toFinset.card) ∧
    (∀ s r, (getStats s r).eyeQso = (s ++ r).countP isEyeMode) ∧
    getStats [[("callSign", "JA1ABC"), ("mode", "CW"), ("status", "pending")]]
        [[("callSign", "W1XYZ"), ("mode", "EYE")]]
      = ⟨1, 1, 1, 2, 1⟩ := by
  refine ⟨fun s r => rfl, fun s r => rfl, ?_, ?_, ?_, by decide⟩
  · intro s r
    simp [getStats, List.countP_eq_length_filter]
  · intro s r
    exact length_foldl_addToSet_nil _
  · intro s r
    simp [getStats, List.countP_eq_length_filter]

/-- Membership in a single-element conditional block. -/
theorem mem_ite_single (a x : String) (b : Bool) :
    (a ∈ if b then [x] else []) ↔ (b = true ∧ a = x) := by
  cases b <;> simp

/-- Validation scenario of spec section 8: `cardType: "stamp"`, all other rules satisfied. -/
def stampCard : Card :=
  [("callSign", "JA1ABC"), ("myCallSign", "BG1ABC"), ("date", "2024-01-15"),
   ("mode", "CW"), ("cardType", "stamp"), ("status", "pending")]

/-- Validation scenario of spec section 8: both `callSign` and `date` absent. -/
def missingCard : Card :=
  [("myCallSign", "BG1ABC"), ("mode", "CW"), ("cardType", "online"), ("status", "pending")]

/-- C6: validation passes iff no rule is violated; a failure's message joins
every collected violation with the "; " delimiter (code 2001, HTTP 400); a
message is collected exactly when its rule is violated (all violations, not
fail-fast); the `cardType: "stamp"` record fails naming the online/physical
constraint, and a record missing both `callSign` and `date` fails with a
message mentioning both. -/
theorem validateCardData_spec :
    (∀ card isSent, validateCardData card isSent = .ok () ↔ cardErrors card isSent = []) ∧
    (∀ card isSent e, validateCardData card isSent = .error e →
      e = ⟨"卡片数据验证失败: " ++ String.intercalate "; " (cardErrors card isSent),
           2001, 400⟩) ∧
    (∀ card isSent m, m ∈ cardErrors card isSent ↔
      (trimEmpty (getField card "callSign") = true ∧ m = "对方呼号不能为空") ∨
      (trimEmpty (getField card "myCallSign") = true ∧ m = "我的呼号不能为空") ∨
      ((!isYmdShape (getField card "date")) = true ∧ m = "通联日期格式不正确(YYYY-MM-DD)") ∨
      (trimEmpty (getField card "mode") = true ∧ m = "通信模式不能为空") ∨
      ((!isCardType (getField card "cardType")) = true ∧ m = "卡片类型必须是online或physical") ∨
      ((isSent && !isSentStatus (getField card "status")) = true ∧
        m = "已发送卡片状态必须是pending或sent") ∨
      ((!isSent && isBadReceivedStatus (getField card "status")) = true ∧
        m = "已接收卡片状态必须是received或verified")) ∧
    validateCardData stampCard true
      = .error ⟨"卡片数据验证失败: 卡片类型必须是online或physical", 2001, 400⟩ ∧
    validateCardData missingCard true
      = .error ⟨"卡片数据验证失败: 对方呼号不能为空; 通联日期格式不正确(YYYY-MM-DD)",
                2001, 400⟩ := by
  refine ⟨?_, ?_, ?_, by decide, by decide⟩
  · intro card isSent
    cases he : cardErrors card isSent with
    | nil => simp [validateCardData, he]
    | cons a l => simp [validateCardData, he]
  · intro card isSent e h
    unfold validateCardData at h
    by_cases hl : (cardErrors card isSent).length > 0
    · rw [if_pos hl] at h
      exact (Except.error.inj h).symm
    · rw [if_neg hl] at h
      exact Except.noConfusion h
  · intro card isSent m
    unfold cardErrors
    simp [mem_ite_single_append, mem_ite_single]

/-- Witness for C6 at a concrete input. -/
theorem validateCardData_spec_witness :
    validateCardData stampCard true
        = .error ⟨"卡片数据验证失败: 卡片类型必须是online或physical", 2001, 400⟩ ∧
    (⟨"卡片数据验证失败: 卡片类型必须是online或physical", 2001, 400⟩ : QslError)
        = ⟨"卡片数据验证失败: " ++ String.intercalate "; " (cardErrors stampCard true),
           2001, 400⟩ :=
  ⟨by decide, validateCardData_spec.2.1 stampCard true _ (by decide)⟩

/-- A valid payload carrying an `id` ("zzz") that is in no collection. -/
def cexPayload : Card :=
  [("id", "zzz"), ("callSign", "JA1ABC"), ("myCallSign", "BG1ABC"), ("date", "2024-01-15"),
   ("mode", "CW"), ("cardType", "online"), ("status", "pending")]

/-- What `saveCard` stores for `cexPayload` (fresh uuid "fresh-1", time "T1"). -/
def cexStored : Card :=
  [("id", "zzz"), ("callSign", "JA1ABC"), ("myCallSign", "BG1ABC"), ("date", "2024-01-15"),
   ("mode", "CW"), ("cardType", "online"), ("status", "pending"),
   ("createdAt", "T1"), ("updatedAt", "T1")]

/-- C1 counterexample: for the valid record `cexPayload`, whose id "zzz"
matches no entry of the (empty) collection, `saveCard` does NOT assign the
newly generated unique id "fresh-1": the payload's own id "zzz" overrides the
fresh uuid in the record literal, so the stored record keeps id "zzz". -/
theorem saveCard_new_id_counterexample :
    validateCardData cexPayload true = .ok () ∧
    saveCard ⟨"s", "r"⟩ cexPayload true "fresh-1" "T1" []
      = (.ok cexStored, [StoreOp.get "s", StoreOp.put "s" [cexStored]]) ∧
    idOf cexStored = some "zzz" ∧
    ¬idOf cexStored = some "fresh-1" := by decide

/-- C1 (amended): for every valid record, `saveCard` loads the collection and
replaces in place (position preserved) the first entry whose id equals the
stored record's id; if no entry matches it appends, the stored record keeping
the payload's id when one is present and receiving the fresh generated id
only when the payload has none; both `createdAt` and `updatedAt` are set to
the current time (so updatedAt ≥ createdAt); the resulting collection is
persisted and contains exactly one record with that id — the returned one. -/
theorem saveCard_upsert_spec (paths : CosPaths) (cardData : Card) (isSentCard : Bool)
    (freshId now : String) (stored : List Card)
    (hval : validateCardData cardData isSentCard = .ok ())
    (hkeys : (cardData.map Prod.fst).Nodup)
    (hu : uniqueIds stored) :
    ∃ newCard updated,
      saveCard paths cardData isSentCard freshId now stored
        = (.ok newCard,
           [StoreOp.get (pathFor paths isSentCard),
            StoreOp.put (pathFor paths isSentCard) updated]) ∧
      idOf newCard = some ((getField cardData "id").getD freshId) ∧
      getField newCard "createdAt" = some now ∧
      getField newCard "updatedAt" = some now ∧
      ((∀ c ∈ stored, idOf c ≠ idOf newCard) → updated = stored ++ [newCard]) ∧
      (∀ pre old post, stored = pre ++ old :: post → idOf old = idOf newCard →
        (∀ c ∈ pre, idOf c ≠ idOf newCard) → updated = pre ++ newCard :: post) ∧
      updated.filter (fun c => idOf c == idOf newCard) = [newCard] := by
  refine ⟨buildNewCard cardData freshId now,
    upsertById (idOf (buildNewCard cardData freshId now))
      (buildNewCard cardData freshId now) stored, ?_, ?_, ?_, ?_, ?_, ?_, ?_⟩
  · simp [saveCard, hval]
  · exact idOf_buildNewCard _ _ _ hkeys
  · rw [getField_buildNewCard]
    simp
  · rw [getField_buildNewCard]
    simp
  · intro hnone
    exact upsertById_of_forall_ne _ _ _ hnone
  · intro pre old post hsplit hold hpre
    rw [hsplit]
    exact upsertById_replace _ _ _ _ _ hpre hold
  · have hid0 := idOf_buildNewCard cardData freshId now hkeys
    rw [hid0]
    exact filter_upsertById stored _ _ hid0 hu

/-- A valid payload with no id. -/
def demoPayload : Card :=
  [("callSign", "JA1ABC"), ("myCallSign", "BG1ABC"), ("date", "2024-01-15"),
   ("mode", "CW"), ("cardType", "online"), ("status", "pending")]

/-- Witness for C1 (amended) at a concrete input. -/
theorem saveCard_upsert_spec_witness :
    validateCardData demoPayload true = .ok () ∧
    (demoPayload.map Prod.fst).Nodup ∧
    uniqueIds [] ∧
    (∃ newCard updated,
      saveCard ⟨"s", "r"⟩ demoPayload true "u1" "T1" []
        = (.ok newCard,
           [StoreOp.get (pathFor ⟨"s", "r"⟩ true),
            StoreOp.put (pathFor ⟨"s", "r"⟩ true) updated]) ∧
      idOf newCard = some ((getField demoPayload "id").getD "u1") ∧
      getField newCard "createdAt" = some "T1" ∧
      getField newCard "updatedAt" = some "T1" ∧
      ((∀ c ∈ ([] : List Card), idOf c ≠ idOf newCard) → updated = [] ++ [newCard]) ∧
      (∀ pre old post, ([] : List Card) = pre ++ old :: post → idOf old = idOf newCard →
        (∀ c ∈ pre, idOf c ≠ idOf newCard) → updated = pre ++ newCard :: post) ∧
      updated.filter (fun c => idOf c == idOf newCard) = [newCard]) :=
  ⟨by decide, by decide, by decide,
   saveCard_upsert_spec ⟨"s", "r"⟩ demoPayload true "u1" "T1" []
    (by decide) (by decide) (by decide)⟩

/-- C10: when the payload's id equals an existing entry's id, `saveCard`
replaces that entry in place with a record built only from the payload plus
fresh timestamps: `createdAt` is reset to the current time (the old entry's
`createdAt` is not preserved) and equals the new `updatedAt`, every key of
the old entry absent from the payload (other than id/createdAt/updatedAt) is
dropped, and the payload's own fields are carried over. -/
theorem saveCard_replace_resets_spec (paths : CosPaths) (cardData : Card)
    (isSentCard : Bool) (freshId now oid : String)
    (pre : List Card) (old : Card) (post : List Card)
    (hval : validateCardData cardData isSentCard = .ok ())
    (hkeys : (cardData.map Prod.fst).Nodup)
    (hpid : getField cardData "id" = some oid)
    (hold : idOf old = some oid)
    (hpre : ∀ c ∈ pre, idOf c ≠ some oid) :
    saveCard paths cardData isSentCard freshId now (pre ++ old :: post)
      = (.ok (buildNewCard cardData freshId now),
         [StoreOp.get (pathFor paths isSentCard),
          StoreOp.put (pathFor paths isSentCard)
            (pre ++ buildNewCard cardData freshId now :: post)]) ∧
    getField (buildNewCard cardData freshId now) "createdAt" = some now ∧
    getField (buildNewCard cardData freshId now) "updatedAt" = some now ∧
    (∀ k, k ∉ cardData.map Prod.fst → k ≠ "id" → k ≠ "createdAt" → k ≠ "updatedAt" →
      getField (buildNewCard cardData freshId now) k = none) ∧
    (∀ k, k ∈ cardData.map Prod.fst → k ≠ "createdAt" → k ≠ "updatedAt" →
      getField (buildNewCard cardData freshId now) k = getField cardData k) := by
  have hid : idOf (buildNewCard cardData freshId now) = some oid := by
    rw [idOf_buildNewCard _ _ _ hkeys, hpid]
    rfl
  refine ⟨?_, ?_, ?_, ?_, ?_⟩
  · simp only [saveCard, hval]
    rw [hid, upsertById_replace _ _ _ _ _ hpre hold]
  · rw [getField_buildNewCard]
    simp
  · rw [getField_buildNewCard]
    simp
  · intro k hk hkid hkc hku
    rw [getField_buildNewCard, if_neg hku, if_neg hkc,
      lastVal_eq_none_of_not_mem _ _ hk]
    dsimp only
    rw [if_neg hkid]
  · intro k hk hkc hku
    rw [getField_buildNewCard, if_neg hku, if_neg hkc, lastVal_eq_getField _ _ hkeys]
    have hne : getField cardData k ≠ none := by
      rw [Ne, getField_eq_none_iff]
      simpa using hk
    cases hg : getField cardData k with
    | none => exact absurd hg hne
    | some v => simp

/-- A valid payload editing the existing entry "k1". -/
def replacePayload : Card :=
  [("id", "k1"), ("callSign", "JA1ABC"), ("myCallSign", "BG1ABC"), ("date", "2024-01-15"),
   ("mode", "CW"), ("cardType", "online"), ("status", "sent")]

/-- The entry being replaced: older timestamps and an extra field. -/
def oldCard : Card :=
  [("id", "k1"), ("callSign", "JA1ABC"), ("myCallSign", "BG1ABC"), ("date", "2024-01-10"),
   ("mode", "CW"), ("cardType", "online"), ("status", "pending"),
   ("note", "extra"), ("createdAt", "T0"), ("updatedAt", "T0")]

/-- Witness for C10 at a concrete input. -/
theorem saveCard_replace_resets_spec_witness :
    validateCardData replacePayload true = .ok () ∧
    (replacePayload.map Prod.fst).Nodup ∧
    getField replacePayload "id" = some "k1" ∧
    idOf oldCard = some "k1" ∧
    (∀ c ∈ ([] : List Card), idOf c ≠ some "k1") ∧
    saveCard ⟨"s", "r"⟩ replacePayload true "u1" "T9" ([] ++ oldCard :: [])
      = (.ok (buildNewCard replacePayload "u1" "T9"),
         [StoreOp.get (pathFor ⟨"s", "r"⟩ true),
          StoreOp.put (pathFor ⟨"s", "r"⟩ true)
            ([] ++ buildNewCard replacePayload "u1" "T9" :: [])]) :=
  ⟨by decide, by decide, by decide, by decide, by decide,
   (saveCard_replace_resets_spec ⟨"s", "r"⟩ replacePayload true "u1" "T9" "k1" [] oldCard []
     (by decide) (by decide) (by decide) (by decide) (by decide)).1⟩

/-- C3: ids stay pairwise distinct: every collection either operation writes
to the store (the upserted collection of `saveCard`, the filtered collection
of `deleteCard`) has pairwise-distinct ids whenever the loaded one did. -/
theorem uniqueIds_preserved :
    (∀ paths cardData isSentCard freshId now stored r ops, uniqueIds stored →
      saveCard paths cardData isSentCard freshId now stored = (r, ops) →
      ∀ key updated, StoreOp.put key updated ∈ ops → uniqueIds updated) ∧
    (∀ cardId path stored r ops, uniqueIds stored →
      deleteCard cardId path stored = (r, ops) →
      ∀ key updated, StoreOp.put key updated ∈ ops → uniqueIds updated) := by
  constructor
  · intro paths cardData isSentCard freshId now stored r ops hu heq key updated hmem
    unfold saveCard at heq
    cases hv : validateCardData cardData isSentCard with
    | error e =>
      rw [hv] at heq
      cases heq
      simp at hmem
    | ok u =>
      rw [hv] at heq
      cases heq
      simp only [List.mem_cons, List.not_mem_nil, or_false] at hmem
      rcases hmem with h1 | h1
      · exact absurd h1 (by simp)
      · have h2 := h1
        rw [StoreOp.put.injEq] at h2
        rcases h2 with ⟨hkey, hup⟩
        rw [hup]
        rcases Option.isSome_iff_exists.mp (idOf_buildNewCard_isSome cardData freshId now)
          with ⟨s, hs⟩
        rw [hs]
        exact uniqueIds_upsertById stored _ s hs hu
  · intro cardId path stored r ops hu heq key updated hmem
    unfold deleteCard at heq
    split at heq
    · cases heq
      simp at hmem
    · dsimp only at heq
      split at heq
      · cases heq
        simp at hmem
      · cases heq
        simp only [List.mem_cons, List.not_mem_nil, or_false] at hmem
        rcases hmem with h1 | h1
        · exact absurd h1 (by simp)
        · rw [StoreOp.put.injEq] at h1
          rw [h1.2]
          exact uniqueIds_filter stored _ hu

/-- Witness for C3 at a concrete input. -/
theorem uniqueIds_preserved_witness :
    uniqueIds [[("id", "a")]] ∧
    saveCard ⟨"s", "r"⟩ demoPayload true "u1" "T1" [[("id", "a")]]
      = (.ok (buildNewCard demoPayload "u1" "T1"),
         [StoreOp.get "s",
          StoreOp.put "s" [[("id", "a")], buildNewCard demoPayload "u1" "T1"]]) ∧
    StoreOp.put "s" [[("id", "a")], buildNewCard demoPayload "u1" "T1"]
      ∈ [StoreOp.get "s",
         StoreOp.put "s" [[("id", "a")], buildNewCard demoPayload "u1" "T1"]] ∧
    uniqueIds [[("id", "a")], buildNewCard demoPayload "u1" "T1"] :=
  ⟨by decide, by decide, by decide,
   uniqueIds_preserved.1 ⟨"s", "r"⟩ demoPayload true "u1" "T1" [[("id", "a")]]
    (.ok (buildNewCard demoPayload "u1" "T1"))
    [StoreOp.get "s", StoreOp.put "s" [[("id", "a")], buildNewCard demoPayload "u1" "T1"]]
    (by decide) (by decide) "s"
    [[("id", "a")], buildNewCard demoPayload "u1" "T1"] (by decide)⟩
